import Mathlib

/-
Verification development for the bare-mcp MCP server core (src/index.js).

The JavaScript source is shallowly embedded: JS values become the inductive
type JVal, insertion-ordered Maps become association lists with unique keys,
JS Sets become duplicate-free lists, thrown exceptions become an Exn error
type threaded through Except, and async handlers (which the dispatcher only
awaits) are modelled as pure functions.  The regexes produced by
buildTemplateRegex only ever consist of literal characters and greedy
character-class capture groups, so they are embedded as lists of RItem and
matched by a backtracking matcher with exactly the greedy-longest-first
semantics of the JS regex engine on such patterns.
-/

namespace BareMCP

/-- JS values (JSON data).  A JS undefined is modelled as a missing
Option value at use sites, never as a JVal. -/
inductive JVal where
  | null
  | bool (b : Bool)
  | num (n : Int)
  | str (s : String)
  | arr (xs : List JVal)
  | obj (fields : List (String × JVal))

/-- JS truthiness test (false, 0, empty string and null are falsy;
all objects and arrays are truthy). -/
def jsFalsy : JVal → Bool
  | .null => true
  | .bool b => !b
  | .num n => n == 0
  | .str s => s == ""
  | .arr _ => false
  | .obj _ => false

/-- Property access obj[k] on a JS object; none models undefined
(also for access on a non-object). -/
def JVal.objGet : JVal → String → Option JVal
  | .obj fields, k => fields.lookup k
  | _, _ => none

/-- Lookup in an insertion-ordered map (JS Map.get); keys are unique,
so first match is the match. -/
def mapGet {α : Type} : List (String × α) → String → Option α
  | [], _ => none
  | (k, v) :: rest, u => if k = u then some v else mapGet rest u

/-- Update the value stored under an existing key in place (JS Map.set on
a present key keeps the entry position). -/
def mapUpdate {α : Type} : List (String × α) → String → (α → α) → List (String × α)
  | [], _, _ => []
  | (k, v) :: rest, u, f => if k = u then (k, f v) :: rest else (k, v) :: mapUpdate rest u f

/-- Remove the entry for a key (JS Map.delete). -/
def mapRemove {α : Type} : List (String × α) → String → List (String × α)
  | [], _ => []
  | (k, v) :: rest, u => if k = u then rest else (k, v) :: mapRemove rest u

/-- JS Map.set: overwrite in place when the key exists, append otherwise. -/
def mapSet {α : Type} (m : List (String × α)) (k : String) (v : α) : List (String × α) :=
  if (mapGet m k).isSome then mapUpdate m k (fun _ => v) else m ++ [(k, v)]

/-- One structured issue carried by a Zod validation error. -/
structure ZodIssue where
  path : List String
  message : String
deriving DecidableEq

/-- A thrown JS exception as the dispatcher can observe it.
mcpError is the repository's MCPError class (name 'MCPError', carries a
code); zodError is a Zod validation error (name 'ZodError', carries
issues); jsError is any other Error-like value, identified by its name
property ('Error', 'URIError', ...).  A jsError never carries the name
'ZodError': errors with that name are represented by the zodError
constructor. -/
inductive Exn where
  | mcpError (code : Int) (message : String) (data : Option JVal)
  | zodError (issues : List ZodIssue)
  | jsError (name : String) (message : String)

namespace ErrorCode

def PARSE_ERROR : Int := -32700
def INVALID_REQUEST : Int := -32600
def METHOD_NOT_FOUND : Int := -32601
def INVALID_PARAMS : Int := -32602
def INTERNAL_ERROR : Int := -32603
def RESOURCE_NOT_FOUND : Int := -32002

end ErrorCode

/-! RFC 6570 URI template support (index.js lines 315-504).

buildTemplateRegex assembles a regex string out of escaped literal
characters, operator prefix/separator characters and the capture snippets
returned by getCapturePattern; the snippets are all of the shapes (.+),
([^c...]+) or ([^c...]*).  The embedding therefore represents the compiled
regex as a list of RItem: a literal character, or a greedy capture group
excluding a fixed character list, requiring at least one character when
the snippet used + rather than *.  The JS dot does not match line
terminators, so (.+) is the group excluding the four line terminators. -/

/-- One variable of a template expression, as produced by parseExpression:
name with modifiers stripped, the explode flag, and the :N prefix-length
modifier (parsed but never used by the matcher, as in the source). -/
structure VarSpec where
  name : String
  explode : Bool
  prefixLen : Option Nat
deriving DecidableEq

/-- Capture metadata recorded by buildTemplateRegex for each group. -/
structure Capture where
  name : String
  operator : String
  explode : Bool
deriving DecidableEq

/-- A compiled regex element: a literal character, or a greedy capture
group matching any character not in excluded (requireOne distinguishes
the + snippets from the * snippets). -/
inductive RItem where
  | lit (c : Char)
  | group (excluded : List Char) (requireOne : Bool)
deriving DecidableEq

/-- The characters the JS regex dot refuses to match. -/
def lineTerminators : List Char := ['\n', '\r', '\u2028', '\u2029']

/-- The RFC 6570 operator characters recognised by parseExpression. -/
def operatorChars : List Char := ['+', '#', '.', '/', ';', '?', '&']

/-- Split a character list on a separator character (JS String.split with
a one-character separator; an empty input yields one empty piece). -/
def splitOnCharAux (sep : Char) : List Char → List Char → List (List Char)
  | [], acc => [acc.reverse]
  | c :: rest, acc =>
    if c = sep then acc.reverse :: splitOnCharAux sep rest []
    else splitOnCharAux sep rest (c :: acc)

def splitOnChar (sep : Char) (s : List Char) : List (List Char) :=
  splitOnCharAux sep s []

/-- Strip a trailing :digits prefix-length modifier (the JS replace with
:\d+$), leaving the name untouched when no such suffix exists. -/
def stripPrefixMod (v : List Char) : List Char :=
  let r := v.reverse
  let ds := r.takeWhile Char.isDigit
  if ds.isEmpty then v
  else
    match r.drop ds.length with
    | ':' :: rest => rest.reverse
    | _ => v

/-- Extract the numeric value of a trailing :digits modifier, if any
(the JS match against :(\d+)$). -/
def prefixModOf (v : List Char) : Option Nat :=
  let r := v.reverse
  let ds := r.takeWhile Char.isDigit
  if ds.isEmpty then none
  else
    match r.drop ds.length with
    | ':' :: _ => some (ds.reverse.foldl (fun n c => n * 10 + (c.toNat - 48)) 0)
    | _ => none

/-- Parse one comma-separated variable of an expression: detect the
explode star, read the prefix modifier off the original text, and strip
first the star and then the :digits modifier to obtain the name. -/
def parseVarSpec (v : List Char) : VarSpec :=
  let explode := v.getLast? = some '*'
  let core := if v.getLast? = some '*' then v.dropLast else v
  ⟨String.mk (stripPrefixMod core), explode, prefixModOf v⟩

/-- parseExpression: an optional leading operator character followed by a
comma-separated variable list. -/
def parseExpression (expr : List Char) : String × List VarSpec :=
  match expr with
  | c :: rest =>
    if c ∈ operatorChars then (String.mk [c], (splitOnChar ',' rest).map parseVarSpec)
    else ("", (splitOnChar ',' expr).map parseVarSpec)
  | [] => ("", (splitOnChar ',' []).map parseVarSpec)

/-- getSeparator: the character placed between two variables of the same
expression. -/
def getSeparator (op : String) : Char :=
  if op = "+" then ','
  else if op = "" then ','
  else if op = "#" then ','
  else if op = "." then '.'
  else if op = "/" then '/'
  else if op = ";" then ';'
  else if op = "?" then '&'
  else if op = "&" then '&'
  else ','

/-- getPrefix: the fixed character emitted before the first variable of an
expression, when the operator has one. -/
def getPrefixChar (op : String) : Option Char :=
  if op = "#" then some '#'
  else if op = "." then some '.'
  else if op = "/" then some '/'
  else if op = ";" then some ';'
  else if op = "?" then some '?'
  else if op = "&" then some '&'
  else none

/-- getCapturePattern: the capture-group snippet for an operator, as an
RItem group.  (.+) is the group excluding only line terminators and
requiring a character; ([^c...]+) and ([^c...]*) exclude the listed
characters. -/
def getCapturePattern (op : String) (explode : Bool) : RItem :=
  if op = "+" then
    if explode then .group lineTerminators true else .group [','] true
  else if op = "#" then .group [','] false
  else if op = "/" then
    if explode then .group lineTerminators true else .group ['/'] true
  else if op = "." then .group ['.', '/'] true
  else if op = ";" then
    if explode then .group [';'] false else .group [';', ','] false
  else if op = "?" then
    if explode then .group ['&'] false else .group ['&', ','] false
  else if op = "&" then
    if explode then .group ['&'] false else .group ['&', ','] false
  else
    if explode then .group lineTerminators true else .group ['/', ','] true

/-- A token of the template scan: a literal character or the content of a
braced expression. -/
inductive TTok where
  | lit (c : Char)
  | expr (content : List Char)
deriving DecidableEq

/-- Find the next closing brace, returning the content before it and the
remainder after it. -/
def takeUntilClose : List Char → Option (List Char × List Char)
  | [] => none
  | c :: rest =>
    if c = '\x7d' then some ([], rest)
    else (takeUntilClose rest).map (fun p => (c :: p.1, p.2))

theorem takeUntilClose_length : ∀ {s con rest : List Char},
    takeUntilClose s = some (con, rest) → rest.length < s.length := by
  intro s
  induction s with
  | nil => intro con rest h; simp [takeUntilClose] at h
  | cons c cs ih =>
    intro con rest h
    simp only [takeUntilClose] at h
    split at h
    · rw [Option.some.injEq, Prod.mk.injEq] at h
      rw [← h.2]
      simp only [List.length_cons]
      omega
    · match h2 : takeUntilClose cs with
      | none => rw [h2] at h; simp at h
      | some (con2, rest2) =>
        rw [h2] at h
        simp only [Option.map_some', Option.some.injEq, Prod.mk.injEq] at h
        have hlt := ih h2
        rw [← h.2]
        simp only [List.length_cons]
        omega

/-- Scan a template for brace expressions, mirroring the global regex
loop over the pattern (a brace pair must enclose at least one character;
an unmatched or empty brace stays literal text, and scanning resumes
after the matched expression exactly as the regex lastIndex does).
The Nat argument is only a structural termination budget: every step
consumes at least one character, so a budget equal to the input length is
never exhausted. -/
def scanTemplateAux : Nat → List Char → List TTok
  | 0, _ => []
  | _ + 1, [] => []
  | fuel + 1, c :: rest =>
    if c = '\x7b' then
      match takeUntilClose rest with
      | some (content, after) =>
        if content.isEmpty then .lit c :: scanTemplateAux fuel rest
        else .expr content :: scanTemplateAux fuel after
      | none => .lit c :: scanTemplateAux fuel rest
    else .lit c :: scanTemplateAux fuel rest

def scanTemplate (s : List Char) : List TTok :=
  scanTemplateAux s.length s

/-- The regex items and capture metadata contributed by one expression:
operator prefix before the first variable, separators between variables,
and one capture group per variable. -/
def varsToItems (op : String) : Bool → List VarSpec → List RItem
  | _, [] => []
  | isFirst, v :: rest =>
    (if isFirst then
       match getPrefixChar op with
       | some c => [RItem.lit c]
       | none => []
     else [RItem.lit (getSeparator op)])
    ++ getCapturePattern op v.explode :: varsToItems op false rest

def exprToItems (content : List Char) : List RItem × List Capture :=
  let p := parseExpression content
  (varsToItems p.1 true p.2, p.2.map (fun v => ⟨v.name, p.1, v.explode⟩))

def scanToItems : List TTok → List RItem × List Capture
  | [] => ([], [])
  | .lit c :: rest =>
    let p := scanToItems rest
    (.lit c :: p.1, p.2)
  | .expr e :: rest =>
    let p1 := exprToItems e
    let p2 := scanToItems rest
    (p1.1 ++ p2.1, p1.2 ++ p2.2)

/-- buildTemplateRegex: compile a template into regex items plus capture
metadata.  The compiled regex is anchored at both ends, which the matcher
below realises by consuming the whole input. -/
def buildTemplateItems (t : String) : List RItem × List Capture :=
  scanToItems (scanTemplate t.toList)

/-- Length of the longest prefix made of characters outside the excluded
list (the span a greedy character-class quantifier first grabs). -/
def runLen (ex : List Char) : List Char → Nat
  | [] => 0
  | c :: rest => if c ∈ ex then 0 else runLen ex rest + 1

/-- Anchored regex matching with JS backtracking semantics: a greedy
group first takes its longest feasible span and retreats one character at
a time until the rest of the pattern matches the rest of the input.
Returns the captured substrings in group order. -/
def matchItems : List RItem → List Char → Option (List (List Char))
  | [], s => if s.isEmpty then some [] else none
  | .lit c :: rest, s =>
    match s with
    | [] => none
    | x :: xs => if x = c then matchItems rest xs else none
  | .group ex req1 :: rest, s =>
    ((List.range (runLen ex s + 1)).reverse).findSome? (fun len =>
      if req1 && len == 0 then none
      else
        match matchItems rest (s.drop len) with
        | some caps => some (s.take len :: caps)
        | none => none)

/-! Percent decoding.  decodeURIComponent is the JS builtin used by
decodeCapture; it throws a URIError when an escape is malformed (a percent
not followed by two hex digits) or when the escaped octets are not a valid
UTF-8 encoding.  It is embedded in two phases: tokenize escapes into
octets, then assemble octets into scalar values with strict UTF-8
validation. -/

def hexDigit (c : Char) : Option Nat :=
  if '0' ≤ c ∧ c ≤ '9' then some (c.toNat - 48)
  else if 'A' ≤ c ∧ c ≤ 'F' then some (c.toNat - 55)
  else if 'a' ≤ c ∧ c ≤ 'f' then some (c.toNat - 87)
  else none

/-- A scan token: an unescaped character, or the octet of a %XX escape. -/
inductive PTok where
  | raw (c : Char)
  | byte (b : Nat)
deriving DecidableEq

/-- Tokenize percent escapes; none models the URIError thrown on a percent
sign not followed by two hex digits. -/
def pctTokens : List Char → Option (List PTok)
  | [] => some []
  | '%' :: h1 :: h2 :: rest =>
    match hexDigit h1, hexDigit h2 with
    | some a, some b => (pctTokens rest).map (.byte (16 * a + b) :: ·)
    | _, _ => none
  | '%' :: _ => none
  | c :: rest => (pctTokens rest).map (.raw c :: ·)

def isContByte (b : Nat) : Bool := decide (0x80 ≤ b ∧ b < 0xC0)

/-- Assemble escape octets into scalar values, rejecting truncated
sequences, stray continuation bytes, overlong encodings, surrogates and
values beyond U+10FFFF; none models the URIError thrown on invalid UTF-8.
Unescaped characters pass through untouched. -/
def utf8Assemble : List PTok → Option (List Char)
  | [] => some []
  | .raw c :: rest => (utf8Assemble rest).map (c :: ·)
  | .byte b :: rest =>
    if b < 0x80 then (utf8Assemble rest).map (Char.ofNat b :: ·)
    else if b < 0xC0 then none
    else if b < 0xE0 then
      match rest with
      | .byte b2 :: rest2 =>
        if isContByte b2 then
          let cp := (b - 0xC0) * 0x40 + (b2 - 0x80)
          if 0x80 ≤ cp then (utf8Assemble rest2).map (Char.ofNat cp :: ·) else none
        else none
      | _ => none
    else if b < 0xF0 then
      match rest with
      | .byte b2 :: .byte b3 :: rest3 =>
        if isContByte b2 && isContByte b3 then
          let cp := (b - 0xE0) * 0x1000 + (b2 - 0x80) * 0x40 + (b3 - 0x80)
          if 0x800 ≤ cp ∧ ¬(0xD800 ≤ cp ∧ cp < 0xE000) then
            (utf8Assemble rest3).map (Char.ofNat cp :: ·)
          else none
        else none
      | _ => none
    else if b < 0xF8 then
      match rest with
      | .byte b2 :: .byte b3 :: .byte b4 :: rest4 =>
        if isContByte b2 && isContByte b3 && isContByte b4 then
          let cp := (b - 0xF0) * 0x40000 + (b2 - 0x80) * 0x1000 + (b3 - 0x80) * 0x40 + (b4 - 0x80)
          if 0x10000 ≤ cp ∧ cp ≤ 0x10FFFF then
            (utf8Assemble rest4).map (Char.ofNat cp :: ·)
          else none
        else none
      | _ => none
    else none

/-- decodeURIComponent: ok with the decoded characters, or the URIError
the builtin throws. -/
def decodeURIComponentE (s : List Char) : Except Exn (List Char) :=
  match pctTokens s with
  | none => .error (.jsError "URIError" "URI malformed")
  | some toks =>
    match utf8Assemble toks with
    | none => .error (.jsError "URIError" "URI malformed")
    | some cs => .ok cs

/-- The key-name discarding step of decodeCapture: for the path-style and
query operators everything up to the first equals sign is dropped. -/
def stripKeyName (value : String) (op : String) : List Char :=
  if (op = ";" ∨ op = "?" ∨ op = "&") ∧ value.toList.contains '=' then
    (value.toList.dropWhile (· ≠ '=')).drop 1
  else value.toList

/-- decodeCapture: an empty capture is returned untouched; otherwise the
capture (with any key-name part discarded) is percent-decoded, which can
throw. -/
def decodeCapture (value : String) (op : String) : Except Exn String :=
  if value = "" then .ok value
  else
    match decodeURIComponentE (stripKeyName value op) with
    | .ok cs => .ok (String.mk cs)
    | .error e => .error e

/-- A matched template parameter: a single decoded string, or the decoded
pieces of an exploded capture. -/
inductive ParamVal where
  | s (v : String)
  | arr (vs : List String)
deriving DecidableEq

/-- Assignment params[name] = v on a JS object (insertion order, an
existing key keeps its position). -/
def objSetP (l : List (String × ParamVal)) (k : String) (v : ParamVal) :
    List (String × ParamVal) :=
  if (mapGet l k).isSome then mapUpdate l k (fun _ => v) else l ++ [(k, v)]

/-- Decode each piece of an exploded capture, left to right, propagating
the first decoding exception. -/
def decodePieces (op : String) : List (List Char) → Except Exn (List String)
  | [] => .ok []
  | p :: rest =>
    match decodeCapture (String.mk p) op with
    | .error e => .error e
    | .ok v =>
      match decodePieces op rest with
      | .error e => .error e
      | .ok vs => .ok (v :: vs)

/-- The capture postprocessing loop of matchTemplate: a non-empty exploded
capture is split on the operator separator and each piece decoded; any
other capture is decoded as a single value. -/
def buildParams : List (Capture × String) → List (String × ParamVal) →
    Except Exn (List (String × ParamVal))
  | [], acc => .ok acc
  | (cap, value) :: rest, acc =>
    if cap.explode && value != "" then
      match decodePieces cap.operator (splitOnChar (getSeparator cap.operator) value.toList) with
      | .error e => .error e
      | .ok vs => buildParams rest (objSetP acc cap.name (.arr vs))
    else
      match decodeCapture value cap.operator with
      | .error e => .error e
      | .ok v => buildParams rest (objSetP acc cap.name (.s v))

/-- A raw value returned by a resource or template reader (or stored as
static text): a plain string, an object carrying a text field and
optional content-level metadata, or any other JSON value (which the
reader serializes).  An object that happens to have a text property is
always represented by the textObj constructor. -/
inductive RawContent where
  | str (s : String)
  | textObj (text : String) (ann : Option JVal)
  | jsonOther (j : JVal)

/-- A registered resource template.  The async read handler is modelled
as a pure function from the extracted parameters to its returned raw
content. -/
structure TemplateDef where
  uriTemplate : String
  name : String
  title : Option String
  description : Option String
  mimeType : String
  read : List (String × ParamVal) → RawContent
  ann : Option JVal

/-- A successful template match: the winning template and the decoded
parameters. -/
structure TMatch where
  tmpl : TemplateDef
  params : List (String × ParamVal)

/-- matchTemplate: try registered templates in registration order; the
first whose compiled regex matches the whole URI wins and its captures
are decoded (which can throw a URIError); ok none when no template
matches. -/
def matchTemplate (tpls : List (String × TemplateDef)) (uri : String) :
    Except Exn (Option TMatch) :=
  match tpls with
  | [] => .ok none
  | (key, tpl) :: rest =>
    match matchItems (buildTemplateItems key).1 uri.toList with
    | some vals =>
      match buildParams ((buildTemplateItems key).2.zip (vals.map String.mk)) [] with
      | .error e => .error e
      | .ok params => .ok (some ⟨tpl, params⟩)
    | none => matchTemplate rest uri

/-! JSON serialization (the JS builtin JSON.stringify, used when a
handler or reader returns a non-string value).  Control characters other
than newline, return and tab are not escaped to the letter here; no claim
depends on the serialized form. -/

def jsonEscapeChar (c : Char) : List Char :=
  if c = '"' then ['\\', '"']
  else if c = '\\' then ['\\', '\\']
  else if c = '\n' then ['\\', 'n']
  else if c = '\r' then ['\\', 'r']
  else if c = '\t' then ['\\', 't']
  else [c]

def jsonQuote (s : String) : String :=
  "\"" ++ String.mk (s.toList.foldr (fun c acc => jsonEscapeChar c ++ acc) []) ++ "\""

def jsonStringify : JVal → String
  | .null => "null"
  | .bool true => "true"
  | .bool false => "false"
  | .num n => toString n
  | .str s => jsonQuote s
  | .arr xs => "[" ++ String.intercalate "," (xs.attach.map (fun x => jsonStringify x.1)) ++ "]"
  | .obj fs =>
    "\x7b" ++ String.intercalate ","
      (fs.attach.map (fun p => jsonQuote p.1.1 ++ ":" ++ jsonStringify p.1.2)) ++ "\x7d"
decreasing_by
  · simp_wf
    have := List.sizeOf_lt_of_mem x.2
    omega
  · simp_wf
    have := List.sizeOf_lt_of_mem p.2
    have h2 : sizeOf p.1.2 < sizeOf p.1 := by
      obtain ⟨⟨k, v⟩, hm⟩ := p
      simp only [Prod.mk.sizeOf_spec]
      omega
    omega

/-! The capability registry and server state (index.js createMCPServer). -/

/-- A registered tool.  The opaque Zod schema is modelled by its two
observable behaviors: parse (ok with the validated arguments, or the
issues of the thrown ZodError) and its zodToJsonSchema image.  The async
execute handler is a pure function returning its result or the exception
it throws. -/
structure ToolDef where
  name : String
  description : String
  parse : JVal → Except (List ZodIssue) JVal
  schemaJson : JVal
  execute : JVal → Except Exn JVal
  ann : Option JVal

/-- A registered resource.  The async read handler, when present, is
modelled by the raw content it returns. -/
structure Resource where
  uri : String
  name : String
  title : Option String
  description : Option String
  mimeType : String
  read : Option RawContent
  text : Option String
  ann : Option JVal

structure ServerState where
  serverName : String
  serverVersion : String
  protocolVersion : String
  tools : List (String × ToolDef)
  resources : List (String × Resource)
  resourceTemplates : List (String × TemplateDef)
  subscriptions : List (String × List String)

/-- The raw content a resource read produces: the reader result when a
reader is present, else the static text; none models the undefined
rawContent of a resource with neither (unreachable through addResource,
which requires one of the two). -/
def resolveRaw (r : Resource) : Option RawContent :=
  match r.read with
  | some rc => some rc
  | none => r.text.map RawContent.str

/-- How readResource turns a raw content value into the text field and
the content-level annotation value: an object with a text field
contributes both, a plain string is the text itself, any other value is
serialized, and undefined raw content leaves the text undefined. -/
def contentTextAnn : Option RawContent → Option String × Option JVal
  | some (.textObj t a) => (some t, a)
  | some (.str s) => (some s, none)
  | some (.jsonOther j) => (some (jsonStringify j), none)
  | none => (none, none)

/-- The value readResource returns: uri, mimeType, text and the merged
annotation value (content-level wins over the registered one). -/
structure ReadOut where
  uri : String
  mimeType : String
  text : Option String
  ann : Option JVal

/-- readResource: an exact resource match is served first; only when no
resource is registered under the URI is template matching attempted; a
decoding exception from matchTemplate propagates; with no match at all a
typed RESOURCE_NOT_FOUND error is thrown. -/
def readResource (st : ServerState) (uri : String) : Except Exn ReadOut :=
  match mapGet st.resources uri with
  | some r =>
    let p := contentTextAnn (resolveRaw r)
    .ok ⟨uri, r.mimeType, p.1, p.2 <|> r.ann⟩
  | none =>
    match matchTemplate st.resourceTemplates uri with
    | .error e => .error e
    | .ok (some m) =>
      let p := contentTextAnn (some (m.tmpl.read m.params))
      .ok ⟨uri, m.tmpl.mimeType, p.1, p.2 <|> m.tmpl.ann⟩
    | .ok none =>
      .error (.mcpError ErrorCode.RESOURCE_NOT_FOUND ("Resource not found: " ++ uri) none)

/-! Subscription ledger (index.js subscribe/unsubscribe/getSubscribers).
The Map from URI to Set of subscriber ids becomes an insertion-ordered
association list of duplicate-free lists. -/

/-- JS Set.add: append the element unless already present. -/
def setAdd (l : List String) (i : String) : List String :=
  if i ∈ l then l else l ++ [i]

/-- subscribe: create an empty entry when the URI is new, then add the
subscriber to its set. -/
def subscribe (subs : List (String × List String)) (u i : String) :
    List (String × List String) :=
  let subs1 := if (mapGet subs u).isSome then subs else subs ++ [(u, [])]
  mapUpdate subs1 u (fun l => setAdd l i)

/-- unsubscribe: remove the subscriber from the entry when one exists,
deleting the entry entirely once its set is empty. -/
def unsubscribe (subs : List (String × List String)) (u i : String) :
    List (String × List String) :=
  match mapGet subs u with
  | none => subs
  | some l =>
    let l2 := l.erase i
    if l2.isEmpty then mapRemove subs u else mapUpdate subs u (fun _ => l2)

/-- getSubscribers: the current set, empty when no entry exists. -/
def getSubscribers (subs : List (String × List String)) (u : String) : List String :=
  (mapGet subs u).getD []

/-! Notification router.  The injected delivery callback is modelled by
returning the notification it would receive; none when the callback is
not invoked.  A targets value of none models the null broadcast marker. -/

structure Notif where
  method : String
  params : JVal
  targets : Option (List String)

/-- notify: broadcast to all clients. -/
def notify (method : String) (params : JVal) : Option Notif :=
  some ⟨method, params, none⟩

/-- notifyTargeted: deliver only when the target set is non-empty. -/
def notifyTargeted (method : String) (params : JVal) (targets : List String) :
    Option Notif :=
  if targets.length > 0 then some ⟨method, params, some targets⟩ else none

/-- notifyResourceUpdated: look up the subscribers of the URI and deliver
a targeted resources/updated notification only when at least one exists. -/
def notifyResourceUpdated (subs : List (String × List String)) (uri : String) :
    Option Notif :=
  let subscribers := getSubscribers subs uri
  if subscribers.length > 0 then
    notifyTargeted "notifications/resources/updated" (.obj [("uri", .str uri)]) subscribers
  else none

/-! Request dispatcher (index.js handleRequest).  Each call returns the
resolved value or the thrown exception, together with the list of tool
handler invocations it performed, the activity entries it recorded and
the subscription ledger it leaves behind.  The Date.now timestamp of an
activity entry is wall-clock data and is not modelled. -/

/-- One recorded activity entry (without its timestamp). -/
structure Activity where
  tool : String
  success : Bool
  error : Option String
deriving DecidableEq

/-- String coercion of the interpolated tool name in error messages; only
the string and undefined cases are exercised by the dispatcher contract
(composite values are approximated by their JSON form). -/
def jsDisplay : Option JVal → String
  | none => "undefined"
  | some .null => "null"
  | some (.bool true) => "true"
  | some (.bool false) => "false"
  | some (.num n) => toString n
  | some (.str s) => s
  | some v => jsonStringify v

/-- The InvalidParams message built from Zod issues: path joined with
dots, a colon, the issue message; issues joined with commas. -/
def zodIssuesMessage (issues : List ZodIssue) : String :=
  String.intercalate ", "
    (issues.map (fun i => String.intercalate "." i.path ++ ": " ++ i.message))

/-- The data payload attached to an InvalidParams error: the raw issue
list under an issues key. -/
def issuesData (issues : List ZodIssue) : JVal :=
  .obj [("issues", .arr (issues.map (fun i =>
    .obj [("path", .arr (i.path.map .str)), ("message", .str i.message)])))]

/-- The message property of a thrown exception as recordActivity reads
it.  A ZodError message is a rendering of its issues; the dispatcher
never inspects its exact text, and it is modelled by the same rendering
used for the InvalidParams message. -/
def exnMessage : Exn → String
  | .mcpError _ m _ => m
  | .zodError issues => zodIssuesMessage issues
  | .jsError _ m => m

/-- The catch block of tools/call: a ZodError becomes InvalidParams with
the issue list as data, an MCPError is re-thrown as-is, anything else is
wrapped as InternalError with the original message. -/
def catchToolError : Exn → Exn
  | .zodError issues =>
    .mcpError ErrorCode.INVALID_PARAMS (zodIssuesMessage issues) (some (issuesData issues))
  | .mcpError c m d => .mcpError c m d
  | .jsError _ m => .mcpError ErrorCode.INTERNAL_ERROR m none

/-- The args or-default: a missing or falsy arguments value is replaced
by an empty object before validation. -/
def argsOrEmpty : Option JVal → JVal
  | none => .obj []
  | some v => if jsFalsy v then .obj [] else v

/-- Normalization of a tool handler result: an array becomes the content
list, a truthy object with a truthy content property passes through
unchanged, anything else is wrapped as a single text content item (a
non-string value being serialized first). -/
def normalizeResult (result : JVal) : JVal :=
  match result with
  | .arr xs => .obj [("content", .arr xs)]
  | r =>
    let passthrough :=
      match r with
      | .obj fs =>
        match (JVal.obj fs).objGet "content" with
        | some c => !jsFalsy c
        | none => false
      | _ => false
    if passthrough then r
    else
      let text := match r with | .str s => s | other => jsonStringify other
      .obj [("content", .arr [.obj [("type", .str "text"), ("text", .str text)]])]

/-- The outcome of one tools/call: the result or thrown error, the
arguments each handler invocation received, and the recorded activity. -/
structure CallOut where
  result : Except Exn JVal
  calls : List JVal
  activity : List Activity

/-- The tools/call branch of handleRequest: look up the tool (a miss is
InvalidParams and a failed activity), validate the arguments (a
validation failure is caught as a ZodError), run the handler exactly once
on the validated value, record activity, normalize the result, and route
any handler exception through the catch block. -/
def handleToolsCall (st : ServerState) (params : JVal) : CallOut :=
  let nameV := params.objGet "name"
  let tool? := (nameV.bind (fun v => match v with | .str s => some s | _ => none)).bind
    (fun s => (mapGet st.tools s).map (fun t => (s, t)))
  match tool? with
  | none =>
    let tn := jsDisplay nameV
    ⟨.error (.mcpError ErrorCode.INVALID_PARAMS ("Unknown tool: " ++ tn) none), [],
      [⟨tn, false, some ("Unknown tool: " ++ tn)⟩]⟩
  | some (toolName, tool) =>
    match tool.parse (argsOrEmpty (params.objGet "arguments")) with
    | .error issues =>
      ⟨.error (catchToolError (.zodError issues)), [],
        [⟨toolName, false, some (exnMessage (.zodError issues))⟩]⟩
    | .ok validated =>
      match tool.execute validated with
      | .ok result => ⟨.ok (normalizeResult result), [validated], [⟨toolName, true, none⟩]⟩
      | .error e =>
        ⟨.error (catchToolError e), [validated], [⟨toolName, false, some (exnMessage e)⟩]⟩

/-- Serialization of a readResource value into the resources/read
response content item (fields with undefined values are omitted, the
annotation only when present, as the object spread does). -/
def readOutToJVal (o : ReadOut) : JVal :=
  .obj ([("uri", .str o.uri), ("mimeType", .str o.mimeType)]
    ++ (match o.text with | some t => [("text", .str t)] | none => [])
    ++ (match o.ann with | some a => [("annotations", a)] | none => []))

/-- The resources/read branch: a missing or falsy uri throws a plain
untyped Error (not an MCPError); otherwise readResource runs and its
value is wrapped in a contents list.  A truthy non-string uri would make
the registry lookup miss and uri.match throw a TypeError. -/
def handleResourcesRead (st : ServerState) (params : JVal) : Except Exn JVal :=
  match params.objGet "uri" with
  | none => .error (.jsError "Error" "Missing uri parameter")
  | some v =>
    if jsFalsy v then .error (.jsError "Error" "Missing uri parameter")
    else
      match v with
      | .str uri =>
        match readResource st uri with
        | .error e => .error e
        | .ok out => .ok (.obj [("contents", .arr [readOutToJVal out])])
      | _ => .error (.jsError "TypeError" "uri.match is not a function")

/-- The subscriber id of a subscribe/unsubscribe request: the transport
supplied _subscriberId when truthy, else the fixed default. -/
def subscriberIdOf (params : JVal) : String :=
  match params.objGet "_subscriberId" with
  | none => "default"
  | some v => if jsFalsy v then "default" else jsDisplay (some v)

/-- The uri argument of subscribe/unsubscribe, as the Map key it is used
for (non-string truthy keys are approximated by their string form). -/
def uriKeyOf (v : JVal) : String :=
  match v with
  | .str s => s
  | other => jsDisplay (some other)

def initializeResult (st : ServerState) : JVal :=
  .obj [("protocolVersion", .str st.protocolVersion),
        ("serverInfo", .obj [("name", .str st.serverName), ("version", .str st.serverVersion)]),
        ("capabilities", .obj [
          ("tools", .obj [("listChanged", .bool true)]),
          ("resources", .obj [("subscribe", .bool true), ("listChanged", .bool true)])])]

def toolsListResult (st : ServerState) : JVal :=
  .obj [("tools", .arr (st.tools.map (fun p =>
    .obj ([("name", .str p.2.name), ("description", .str p.2.description),
           ("inputSchema", p.2.schemaJson)]
      ++ (match p.2.ann with | some a => [("annotations", a)] | none => [])))))]

def resourcesListResult (st : ServerState) : JVal :=
  .obj [("resources", .arr (st.resources.map (fun p =>
    .obj ([("uri", .str p.2.uri), ("name", .str p.2.name)]
      ++ (match p.2.title with | some t => if t = "" then [] else [("title", .str t)] | none => [])
      ++ (match p.2.description with | some d => if d = "" then [] else [("description", .str d)] | none => [])
      ++ [("mimeType", .str p.2.mimeType)]
      ++ (match p.2.ann with | some a => [("annotations", a)] | none => [])))))]

def templatesListResult (st : ServerState) : JVal :=
  .obj [("resourceTemplates", .arr (st.resourceTemplates.map (fun p =>
    .obj ([("uriTemplate", .str p.2.uriTemplate), ("name", .str p.2.name)]
      ++ (match p.2.title with | some t => if t = "" then [] else [("title", .str t)] | none => [])
      ++ (match p.2.description with | some d => if d = "" then [] else [("description", .str d)] | none => [])
      ++ [("mimeType", .str p.2.mimeType)]
      ++ (match p.2.ann with | some a => [("annotations", a)] | none => [])))))]

/-- The supported method table of the dispatcher switch. -/
def supportedMethods : List String :=
  ["initialize", "tools/list", "tools/call", "resources/list",
   "resources/templates/list", "resources/read", "resources/subscribe",
   "resources/unsubscribe", "ping", "notifications/initialized",
   "notifications/cancelled", "notifications/roots/list_changed"]

/-- The observable outcome of one dispatched request. -/
structure DispatchOut where
  result : Except Exn JVal
  calls : List JVal
  activity : List Activity
  subsAfter : List (String × List String)

/-- handleRequest: the protocol method switch. -/
def handleRequest (st : ServerState) (method : String) (params : JVal) : DispatchOut :=
  if method = "initialize" then ⟨.ok (initializeResult st), [], [], st.subscriptions⟩
  else if method = "tools/list" then ⟨.ok (toolsListResult st), [], [], st.subscriptions⟩
  else if method = "tools/call" then
    let o := handleToolsCall st params
    ⟨o.result, o.calls, o.activity, st.subscriptions⟩
  else if method = "resources/list" then ⟨.ok (resourcesListResult st), [], [], st.subscriptions⟩
  else if method = "resources/templates/list" then
    ⟨.ok (templatesListResult st), [], [], st.subscriptions⟩
  else if method = "resources/read" then
    ⟨handleResourcesRead st params, [], [], st.subscriptions⟩
  else if method = "resources/subscribe" then
    match params.objGet "uri" with
    | none => ⟨.error (.jsError "Error" "Missing uri parameter"), [], [], st.subscriptions⟩
    | some v =>
      if jsFalsy v then
        ⟨.error (.jsError "Error" "Missing uri parameter"), [], [], st.subscriptions⟩
      else
        ⟨.ok (.obj []), [], [],
          subscribe st.subscriptions (uriKeyOf v) (subscriberIdOf params)⟩
  else if method = "resources/unsubscribe" then
    match params.objGet "uri" with
    | none => ⟨.error (.jsError "Error" "Missing uri parameter"), [], [], st.subscriptions⟩
    | some v =>
      if jsFalsy v then
        ⟨.error (.jsError "Error" "Missing uri parameter"), [], [], st.subscriptions⟩
      else
        ⟨.ok (.obj []), [], [],
          unsubscribe st.subscriptions (uriKeyOf v) (subscriberIdOf params)⟩
  else if method = "ping" then ⟨.ok (.obj []), [], [], st.subscriptions⟩
  else if method = "notifications/initialized" then ⟨.ok (.obj []), [], [], st.subscriptions⟩
  else if method = "notifications/cancelled" then ⟨.ok (.obj []), [], [], st.subscriptions⟩
  else if method = "notifications/roots/list_changed" then
    ⟨.ok (.obj []), [], [], st.subscriptions⟩
  else
    ⟨.error (.mcpError ErrorCode.METHOD_NOT_FOUND ("Unknown method: " ++ method) none),
      [], [], st.subscriptions⟩

/-! Theorems. -/

/-- The parameters extracted by a successful template match. -/
def matchedParams (r : Except Exn (Option TMatch)) : Option (List (String × ParamVal)) :=
  match r with
  | .ok (some m) => some m.params
  | _ => none

/-- A registered template with the given pattern and a trivial reader,
for exercising the matcher. -/
def tplOf (k : String) : String × TemplateDef :=
  (k, ⟨k, "template", none, none, "text/plain", fun _ => .str "", none⟩)

/-- The character class of a capture group. -/
def excludedChars : RItem → List Char
  | .lit _ => []
  | .group ex _ => ex

/-- C3: the URI-template matcher satisfies the three round-trip examples:
item://\x7bid\x7d on item://42 yields id = 42; files://\x7b/path*\x7d on
files:///a/b/c yields path = [a, b, c]; search://\x7bterm\x7d\x7b?limit\x7d on
search://hello?limit=10 yields term = hello and limit = 10. -/
theorem c3_uri_template_round_trip_examples :
    matchedParams (matchTemplate [tplOf "item://\x7bid\x7d"] "item://42")
      = some [("id", .s "42")] ∧
    matchedParams (matchTemplate [tplOf "files://\x7b/path*\x7d"] "files:///a/b/c")
      = some [("path", .arr ["a", "b", "c"])] ∧
    matchedParams
        (matchTemplate [tplOf "search://\x7bterm\x7d\x7b?limit\x7d"] "search://hello?limit=10")
      = some [("term", .s "hello"), ("limit", .s "10")] :=
  ⟨rfl, rfl, rfl⟩

/-- C9 counterexample: the simple-operator non-exploded capture group
also excludes the slash, so the URI x://a/b, whose segment a/b contains a
slash and no comma, does not match the template x://\x7bv\x7d at all — the
claim predicts a match capturing the whole segment. -/
theorem c9_counterexample_simple_capture_stops_at_slash :
    '/' ∈ excludedChars (getCapturePattern "" false) ∧
    matchTemplate [tplOf "x://\x7bv\x7d"] "x://a/b" = .ok none :=
  ⟨by decide, rfl⟩

/-- C9 amended: only the reserved-operator non-exploded capture accepts
every character except the comma; the simple non-exploded capture
excludes both the comma and the slash.  A segment with a slash and no
comma therefore matches a reserved capture wholly but not a simple one. -/
theorem c9_amended_capture_character_classes :
    (∀ c : Char, c ∈ excludedChars (getCapturePattern "+" false) ↔ c = ',') ∧
    (∀ c : Char, c ∈ excludedChars (getCapturePattern "" false) ↔ (c = '/' ∨ c = ',')) ∧
    matchedParams (matchTemplate [tplOf "x://\x7b+v\x7d"] "x://a/b")
      = some [("v", .s "a/b")] ∧
    matchTemplate [tplOf "x://\x7bv\x7d"] "x://a/b" = .ok none := by
  refine ⟨fun c => ?_, fun c => ?_, rfl, rfl⟩
  · simp [getCapturePattern, excludedChars]
  · simp [getCapturePattern, excludedChars]

/-- A freshly created server with nothing registered. -/
def emptyState : ServerState := ⟨"mcp-server", "1.0.0", "2025-11-25", [], [], [], []⟩

/-- Whether a dispatch outcome failed with a typed protocol error (one
carrying an integer code). -/
def resultIsTypedError (o : DispatchOut) : Bool :=
  match o.result with
  | .error (.mcpError _ _ _) => true
  | _ => false

/-- Routing of the tools/call method through the dispatcher switch. -/
theorem handleRequest_tools_call (st : ServerState) (p : JVal) :
    handleRequest st "tools/call" p =
      ⟨(handleToolsCall st p).result, (handleToolsCall st p).calls,
        (handleToolsCall st p).activity, st.subscriptions⟩ := rfl

/-- Routing of the resources/read method through the dispatcher switch. -/
theorem handleRequest_resources_read (st : ServerState) (p : JVal) :
    handleRequest st "resources/read" p =
      ⟨handleResourcesRead st p, [], [], st.subscriptions⟩ := rfl

/-- A params value with a missing or falsy uri property. -/
def uriMissing (params : JVal) : Prop :=
  match params.objGet "uri" with
  | none => True
  | some v => jsFalsy v = true

/-- C5 counterexample: dispatching resources/read without a uri raises
the plain untyped Error thrown by the missing-uri guard — it carries no
integer code, so it is not in the MissingParameter/InvalidParams class of
typed dispatcher errors the claim requires. -/
theorem c5_counterexample_missing_uri_is_untyped :
    (handleRequest emptyState "resources/read" (.obj [])).result
      = .error (.jsError "Error" "Missing uri parameter") ∧
    resultIsTypedError (handleRequest emptyState "resources/read" (.obj [])) = false :=
  ⟨rfl, rfl⟩

/-- C5 amended: for every params value lacking a truthy uri field,
dispatching resources/read fails with the untyped plain Error whose
message is Missing uri parameter; no typed error with an integer code is
raised. -/
theorem c5_amended_missing_uri_plain_error (st : ServerState) (params : JVal)
    (h : uriMissing params) :
    (handleRequest st "resources/read" params).result
      = .error (.jsError "Error" "Missing uri parameter") ∧
    resultIsTypedError (handleRequest st "resources/read" params) = false := by
  rw [handleRequest_resources_read]
  unfold uriMissing at h
  unfold handleResourcesRead resultIsTypedError
  cases hu : params.objGet "uri" with
  | none => simp
  | some v =>
    rw [hu] at h
    simp [h]

/-- C5 amended witness at a concrete input. -/
theorem c5_amended_witness :
    (handleRequest emptyState "resources/read" (.obj [("x", .num 1)])).result
      = .error (.jsError "Error" "Missing uri parameter") ∧
    resultIsTypedError (handleRequest emptyState "resources/read" (.obj [("x", .num 1)]))
      = false :=
  c5_amended_missing_uri_plain_error emptyState (.obj [("x", .num 1)]) trivial

/-- C6: dispatching any method outside the supported method table fails
with UnknownMethod (-32601), while a tools/call naming no registered tool
fails with InvalidParams (-32602), not UnknownMethod. -/
theorem c6_unknown_method_vs_unknown_tool
    (st : ServerState) (M : String) (p : JVal) (n : String)
    (hM : M ∉ supportedMethods)
    (hn : p.objGet "name" = some (.str n))
    (htool : mapGet st.tools n = none) :
    (handleRequest st M p).result
      = .error (.mcpError ErrorCode.METHOD_NOT_FOUND ("Unknown method: " ++ M) none) ∧
    (handleRequest st "tools/call" p).result
      = .error (.mcpError ErrorCode.INVALID_PARAMS ("Unknown tool: " ++ n) none) := by
  constructor
  · simp only [supportedMethods, List.mem_cons, List.mem_singleton, not_or] at hM
    obtain ⟨h1, h2, h3, h4, h5, h6, h7, h8, h9, h10, h11, h12⟩ := hM
    simp [handleRequest, h1, h2, h3, h4, h5, h6, h7, h8, h9, h10, h11, h12]
  · rw [handleRequest_tools_call]
    unfold handleToolsCall
    rw [hn]
    simp [htool, jsDisplay]

/-- C6 witness at a concrete unknown method and unknown tool name. -/
theorem c6_witness :
    (handleRequest emptyState "no/such" (.obj [("name", .str "nope")])).result
      = .error (.mcpError ErrorCode.METHOD_NOT_FOUND "Unknown method: no/such" none) ∧
    (handleRequest emptyState "tools/call" (.obj [("name", .str "nope")])).result
      = .error (.mcpError ErrorCode.INVALID_PARAMS "Unknown tool: nope" none) :=
  c6_unknown_method_vs_unknown_tool emptyState "no/such" (.obj [("name", .str "nope")])
    "nope" (by decide) rfl rfl

/-- C8: notifyResourceUpdated invokes the delivery callback exactly when
the ledger holds at least one subscriber for the URI, and the delivered
target set is exactly the current subscriber set. -/
theorem c8_notify_resource_updated_targets
    (subs : List (String × List String)) (u : String) :
    ((notifyResourceUpdated subs u).isSome ↔ getSubscribers subs u ≠ []) ∧
    (∀ nf, notifyResourceUpdated subs u = some nf →
      nf.targets = some (getSubscribers subs u) ∧
      nf.method = "notifications/resources/updated") := by
  unfold notifyResourceUpdated notifyTargeted
  cases hg : getSubscribers subs u with
  | nil => simp
  | cons a l =>
    constructor
    · simp
    · intro nf hnf
      simp at hnf
      rw [← hnf]
      exact ⟨rfl, rfl⟩

/-- C8 witness at a concrete two-subscriber ledger. -/
theorem c8_witness :
    ((notifyResourceUpdated [("data://a", ["c1", "c2"])] "data://a").isSome ↔
      getSubscribers [("data://a", ["c1", "c2"])] "data://a" ≠ []) ∧
    (Notif.targets
        ⟨"notifications/resources/updated", .obj [("uri", .str "data://a")],
          some ["c1", "c2"]⟩
      = some (getSubscribers [("data://a", ["c1", "c2"])] "data://a") ∧
     Notif.method
        ⟨"notifications/resources/updated", .obj [("uri", .str "data://a")],
          some ["c1", "c2"]⟩
      = "notifications/resources/updated") :=
  ⟨(c8_notify_resource_updated_targets [("data://a", ["c1", "c2"])] "data://a").1,
   (c8_notify_resource_updated_targets [("data://a", ["c1", "c2"])] "data://a").2 _ rfl⟩

/-- The params object of a tools/call request for a tool name and an
optional arguments value. -/
def callParams (N : String) (A : Option JVal) : JVal :=
  .obj ([("name", .str N)] ++ (match A with | some a => [("arguments", a)] | none => []))

theorem callParams_name (N : String) (A : Option JVal) :
    (callParams N A).objGet "name" = some (.str N) := by
  cases A <;> rfl

theorem callParams_arguments (N : String) (A : Option JVal) :
    (callParams N A).objGet "arguments" = A := by
  cases A <;> rfl

/-- C1: dispatching tools/call for a registered tool invokes its handler
exactly once, with exactly the value validation produced, and never
invokes it when validation fails. -/
theorem c1_tools_call_validates_then_invokes_once
    (st : ServerState) (N : String) (tool : ToolDef) (A : Option JVal)
    (hreg : mapGet st.tools N = some tool) :
    (∀ v, tool.parse (argsOrEmpty A) = .ok v →
      (handleRequest st "tools/call" (callParams N A)).calls = [v]) ∧
    (∀ issues, tool.parse (argsOrEmpty A) = .error issues →
      (handleRequest st "tools/call" (callParams N A)).calls = []) := by
  rw [handleRequest_tools_call]
  constructor
  · intro v hv
    cases htx : tool.execute v <;>
      simp [handleToolsCall, callParams_name, callParams_arguments, hreg, hv, htx]
  · intro issues hv
    simp [handleToolsCall, callParams_name, callParams_arguments, hreg, hv]

def c1Tool : ToolDef :=
  ⟨"add", "", fun v => .ok v, .obj [], fun _ => .ok (.str "5"), none⟩

def c1State : ServerState := ⟨"s", "1", "p", [("add", c1Tool)], [], [], []⟩

/-- C1 witness: a concrete call whose validation succeeds invokes the
handler once with the validated arguments. -/
theorem c1_witness :
    (handleRequest c1State "tools/call"
        (callParams "add" (some (.obj [("a", .num 2)])))).calls
      = [.obj [("a", .num 2)]] :=
  (c1_tools_call_validates_then_invokes_once c1State "add" c1Tool
    (some (.obj [("a", .num 2)])) rfl).1 _ rfl

def c4Tool : ToolDef :=
  ⟨"boom", "", fun v => .ok v, .obj [],
    fun _ => .error (.zodError [⟨["a"], "oops"⟩]), none⟩

def c4State : ServerState := ⟨"s", "1", "p", [("boom", c4Tool)], [], [], []⟩

/-- C4 counterexample: a handler that throws a ZodError — not a typed
protocol error — is re-raised as InvalidParams (-32602) with a rebuilt
message, not as InternalError (-32603) with the original message, because
the catch block converts anything named ZodError before the wrapping
step. -/
theorem c4_counterexample_handler_zod_error_not_internal :
    (handleRequest c4State "tools/call" (callParams "boom" none)).result
      = .error (.mcpError ErrorCode.INVALID_PARAMS "a: oops"
          (some (issuesData [⟨["a"], "oops"⟩]))) ∧
    ErrorCode.INVALID_PARAMS ≠ ErrorCode.INTERNAL_ERROR :=
  ⟨rfl, by decide⟩

/-- C4 amended: a handler exception that is a typed MCPError passes
through unchanged; an exception named ZodError is converted to
InvalidParams carrying its issues (the same conversion applied to
validation failures); any other exception is wrapped as InternalError
with the original message preserved; in every case one failed activity
entry is recorded. -/
theorem c4_amended_handler_exception_wrapping
    (st : ServerState) (N : String) (tool : ToolDef) (A : Option JVal)
    (v : JVal) (e : Exn)
    (hreg : mapGet st.tools N = some tool)
    (hparse : tool.parse (argsOrEmpty A) = .ok v)
    (hexec : tool.execute v = .error e) :
    (handleRequest st "tools/call" (callParams N A)).result = .error (catchToolError e) ∧
    (∀ c m d, e = .mcpError c m d → catchToolError e = .mcpError c m d) ∧
    (∀ nm m, e = .jsError nm m →
      catchToolError e = .mcpError ErrorCode.INTERNAL_ERROR m none) ∧
    (∀ issues, e = .zodError issues →
      catchToolError e = .mcpError ErrorCode.INVALID_PARAMS (zodIssuesMessage issues)
        (some (issuesData issues))) ∧
    (handleRequest st "tools/call" (callParams N A)).activity
      = [⟨N, false, some (exnMessage e)⟩] := by
  rw [handleRequest_tools_call]
  refine ⟨?_, ?_, ?_, ?_, ?_⟩
  · simp [handleToolsCall, callParams_name, callParams_arguments, hreg, hparse, hexec]
  · intro c m d he; subst he; rfl
  · intro nm m he; subst he; rfl
  · intro issues he; subst he; rfl
  · simp [handleToolsCall, callParams_name, callParams_arguments, hreg, hparse, hexec]

def c4wTool : ToolDef :=
  ⟨"t", "", fun v => .ok v, .obj [], fun _ => .error (.jsError "Error" "kaboom"), none⟩

def c4wState : ServerState := ⟨"s", "1", "p", [("t", c4wTool)], [], [], []⟩

/-- C4 amended witness: a plain Error from the handler surfaces as
InternalError with its message, and a failed activity entry is logged. -/
theorem c4_amended_witness :
    (handleRequest c4wState "tools/call" (callParams "t" none)).result
      = .error (.mcpError ErrorCode.INTERNAL_ERROR "kaboom" none) ∧
    (handleRequest c4wState "tools/call" (callParams "t" none)).activity
      = [⟨"t", false, some "kaboom"⟩] :=
  have h := c4_amended_handler_exception_wrapping c4wState "t" c4wTool none (.obj [])
    (.jsError "Error" "kaboom") rfl rfl rfl
  ⟨h.1, h.2.2.2.2⟩

theorem decodeURIComponentE_error {s : List Char} {e : Exn}
    (h : decodeURIComponentE s = .error e) : e = .jsError "URIError" "URI malformed" := by
  unfold decodeURIComponentE at h
  split at h
  · simp at h; exact h.symm
  · split at h
    · simp at h; exact h.symm
    · simp at h

theorem decodeCapture_error {v op : String} {e : Exn}
    (h : decodeCapture v op = .error e) : e = .jsError "URIError" "URI malformed" := by
  unfold decodeCapture at h
  split at h
  · simp at h
  · split at h
    next heq => simp at h
    next e2 heq => simp at h; rw [← h]; exact decodeURIComponentE_error heq

theorem decodePieces_error {op : String} : ∀ {ps : List (List Char)} {e : Exn},
    decodePieces op ps = .error e → e = .jsError "URIError" "URI malformed" := by
  intro ps
  induction ps with
  | nil => intro e h; simp [decodePieces] at h
  | cons p rest ih =>
    intro e h
    unfold decodePieces at h
    split at h
    next heq => simp at h; rw [← h]; exact decodeCapture_error heq
    next =>
      split at h
      next heq2 => simp at h; rw [← h]; exact ih heq2
      next => simp at h

theorem buildParams_error : ∀ {cs : List (Capture × String)}
    {acc : List (String × ParamVal)} {e : Exn},
    buildParams cs acc = .error e → e = .jsError "URIError" "URI malformed" := by
  intro cs
  induction cs with
  | nil => intro acc e h; simp [buildParams] at h
  | cons c rest ih =>
    intro acc e h
    unfold buildParams at h
    split at h
    · split at h
      next heq => simp at h; rw [← h]; exact decodePieces_error heq
      next => exact ih h
    · split at h
      next heq => simp at h; rw [← h]; exact decodeCapture_error heq
      next => exact ih h

theorem matchTemplate_error : ∀ {tpls : List (String × TemplateDef)}
    {uri : String} {e : Exn},
    matchTemplate tpls uri = .error e → e = .jsError "URIError" "URI malformed" := by
  intro tpls
  induction tpls with
  | nil => intro uri e h; simp [matchTemplate] at h
  | cons t rest ih =>
    intro uri e h
    unfold matchTemplate at h
    split at h
    · split at h
      next heq => simp at h; rw [← h]; exact buildParams_error heq
      next => simp at h
    · exact ih h

/-- C10: when the first registered template's pattern matches a URI but
one of its captured substrings fails percent-decoding (a malformed
escape), matchTemplate throws the untyped URIError of decodeURIComponent
instead of reporting no match, and readResource and a dispatched
resources/read propagate that untyped error rather than a typed
ResourceNotFound. -/
theorem c10_malformed_escape_untyped_urierror
    (st : ServerState) (uri key : String) (tpl : TemplateDef)
    (rest : List (String × TemplateDef)) (vals : List (List Char)) (e : Exn)
    (hres : mapGet st.resources uri = none)
    (htpls : st.resourceTemplates = (key, tpl) :: rest)
    (hmatch : matchItems (buildTemplateItems key).1 uri.toList = some vals)
    (hdec : buildParams ((buildTemplateItems key).2.zip (vals.map String.mk)) [] = .error e)
    (hne : uri ≠ "") :
    matchTemplate st.resourceTemplates uri = .error e ∧
    e = .jsError "URIError" "URI malformed" ∧
    readResource st uri = .error e ∧
    (handleRequest st "resources/read" (.obj [("uri", .str uri)])).result = .error e := by
  have hmt : matchTemplate st.resourceTemplates uri = .error e := by
    rw [htpls]
    unfold matchTemplate
    have hmatch2 : matchItems (buildTemplateItems key).1 uri.data = some vals := hmatch
    simp [hmatch2, hdec]
  have hrr : readResource st uri = .error e := by
    unfold readResource
    rw [hres, hmt]
  refine ⟨hmt, matchTemplate_error hmt, hrr, ?_⟩
  rw [handleRequest_resources_read]
  unfold handleResourcesRead
  simp [JVal.objGet, jsFalsy, hne, hrr]

def c10State : ServerState := ⟨"s", "1", "p", [], [], [tplOf "item://\x7bid\x7d"], []⟩

/-- C10 witness: the template item://\x7bid\x7d matches item://%zz, and
the malformed escape %zz makes matching, readResource and resources/read
all fail with the untyped URIError. -/
theorem c10_witness :
    matchTemplate c10State.resourceTemplates "item://%zz"
      = .error (.jsError "URIError" "URI malformed") ∧
    readResource c10State "item://%zz" = .error (.jsError "URIError" "URI malformed") ∧
    (handleRequest c10State "resources/read"
        (.obj [("uri", .str "item://%zz")])).result
      = .error (.jsError "URIError" "URI malformed") :=
  have h := c10_malformed_escape_untyped_urierror c10State "item://%zz"
    "item://\x7bid\x7d" (tplOf "item://\x7bid\x7d").2 [] ["%zz".toList]
    (.jsError "URIError" "URI malformed") rfl rfl rfl rfl (by decide)
  ⟨h.1, h.2.2.1, h.2.2.2⟩

/-- C2: readResource serves an exact resource match first — its value is
built from the resource's own content and mimeType and is unchanged under
any template list — attempts template matching only when no resource is
registered under the URI, and fails with the typed RESOURCE_NOT_FOUND
error when neither an exact resource nor a matching template exists. -/
theorem c2_read_resource_exact_match_precedence (st : ServerState) (u : String) :
    (∀ r, mapGet st.resources u = some r →
      readResource st u
        = .ok ⟨u, r.mimeType, (contentTextAnn (resolveRaw r)).1,
            (contentTextAnn (resolveRaw r)).2 <|> r.ann⟩ ∧
      ∀ tpls, readResource { st with resourceTemplates := tpls } u = readResource st u) ∧
    (mapGet st.resources u = none →
      ∀ m, matchTemplate st.resourceTemplates u = .ok (some m) →
        readResource st u
          = .ok ⟨u, m.tmpl.mimeType, (contentTextAnn (some (m.tmpl.read m.params))).1,
              (contentTextAnn (some (m.tmpl.read m.params))).2 <|> m.tmpl.ann⟩) ∧
    (mapGet st.resources u = none → matchTemplate st.resourceTemplates u = .ok none →
      readResource st u
        = .error (.mcpError ErrorCode.RESOURCE_NOT_FOUND ("Resource not found: " ++ u) none)) := by
  refine ⟨fun r hr => ⟨?_, fun tpls => ?_⟩, fun hn m hm => ?_, fun hn hm => ?_⟩
  · unfold readResource
    rw [hr]
  · unfold readResource
    rw [show ({ st with resourceTemplates := tpls } : ServerState).resources
          = st.resources from rfl, hr]
  · unfold readResource
    rw [hn, hm]
  · unfold readResource
    rw [hn, hm]

def c2Res : Resource :=
  ⟨"dual://x", "Dual", none, none, "text/plain", none, some "RES", none⟩

def c2Tpl : String × TemplateDef :=
  ("dual://\x7bv\x7d",
    ⟨"dual://\x7bv\x7d", "T", none, none, "application/json", fun _ => .str "TPL", none⟩)

def c2State : ServerState := ⟨"s", "1", "p", [], [("dual://x", c2Res)], [c2Tpl], []⟩

/-- C2 witness: with a resource at dual://x and a template whose pattern
also matches that URI, readResource returns the resource's text and
mimeType, and an unmatched URI fails with RESOURCE_NOT_FOUND. -/
theorem c2_witness :
    readResource c2State "dual://x" = .ok ⟨"dual://x", "text/plain", some "RES", none⟩ ∧
    matchedParams (matchTemplate c2State.resourceTemplates "dual://x")
      = some [("v", .s "x")] ∧
    readResource c2State "dual://a/b"
      = .error (.mcpError ErrorCode.RESOURCE_NOT_FOUND "Resource not found: dual://a/b" none) :=
  ⟨((c2_read_resource_exact_match_precedence c2State "dual://x").1 c2Res rfl).1,
   rfl,
   (c2_read_resource_exact_match_precedence c2State "dual://a/b").2.2 rfl rfl⟩

/-! Helper lemmas about the association-list map operations, used for the
subscription ledger claims. -/

theorem mapGet_cons {α : Type} (pk : String) (pv : α) (rest : List (String × α))
    (k : String) :
    mapGet ((pk, pv) :: rest) k = if pk = k then some pv else mapGet rest k := rfl

theorem mapUpdate_cons {α : Type} (pk : String) (pv : α) (rest : List (String × α))
    (k : String) (f : α → α) :
    mapUpdate ((pk, pv) :: rest) k f
      = if pk = k then (pk, f pv) :: rest else (pk, pv) :: mapUpdate rest k f := rfl

theorem mapRemove_cons {α : Type} (pk : String) (pv : α) (rest : List (String × α))
    (k : String) :
    mapRemove ((pk, pv) :: rest) k
      = if pk = k then rest else (pk, pv) :: mapRemove rest k := rfl

theorem mapGet_none_iff {α : Type} {m : List (String × α)} {k : String} :
    mapGet m k = none ↔ k ∉ m.map Prod.fst := by
  induction m with
  | nil => simp [mapGet]
  | cons p rest ih =>
    obtain ⟨pk, pv⟩ := p
    rw [mapGet_cons]
    by_cases h : pk = k
    · subst h; simp
    · simp only [h, if_false, List.map_cons, List.mem_cons, not_or]
      rw [ih]
      exact ⟨fun hk => ⟨fun he => h he.symm, hk⟩, fun hk => hk.2⟩

theorem mapGet_some_mem {α : Type} {m : List (String × α)} {k : String} {v : α}
    (h : mapGet m k = some v) : (k, v) ∈ m := by
  induction m with
  | nil => simp [mapGet] at h
  | cons p rest ih =>
    obtain ⟨pk, pv⟩ := p
    rw [mapGet_cons] at h
    by_cases hk : pk = k
    · subst hk
      rw [if_pos rfl] at h
      simp at h
      simp [h]
    · rw [if_neg hk] at h
      simp [ih h]

theorem mapGet_append_of_none {α : Type} {xs : List (String × α)} {k : String}
    (h : mapGet xs k = none) (ys : List (String × α)) :
    mapGet (xs ++ ys) k = mapGet ys k := by
  induction xs with
  | nil => rfl
  | cons p rest ih =>
    obtain ⟨pk, pv⟩ := p
    rw [mapGet_cons] at h
    rw [List.cons_append, mapGet_cons]
    by_cases hk : pk = k
    · rw [if_pos hk] at h; exact absurd h (by simp)
    · rw [if_neg hk] at h
      rw [if_neg hk]
      exact ih h

theorem mapUpdate_append_of_none {α : Type} {xs : List (String × α)} {k : String}
    (h : mapGet xs k = none) (ys : List (String × α)) (f : α → α) :
    mapUpdate (xs ++ ys) k f = xs ++ mapUpdate ys k f := by
  induction xs with
  | nil => rfl
  | cons p rest ih =>
    obtain ⟨pk, pv⟩ := p
    rw [mapGet_cons] at h
    rw [List.cons_append, mapUpdate_cons]
    by_cases hk : pk = k
    · rw [if_pos hk] at h; exact absurd h (by simp)
    · rw [if_neg hk] at h
      rw [if_neg hk, List.cons_append, ih h]

theorem mapGet_update_self {α : Type} {m : List (String × α)} {k : String} {v : α}
    (h : mapGet m k = some v) (f : α → α) :
    mapGet (mapUpdate m k f) k = some (f v) := by
  induction m with
  | nil => simp [mapGet] at h
  | cons p rest ih =>
    obtain ⟨pk, pv⟩ := p
    rw [mapGet_cons] at h
    rw [mapUpdate_cons]
    by_cases hk : pk = k
    · rw [if_pos hk] at h
      simp at h
      rw [if_pos hk, mapGet_cons, if_pos hk, h]
    · rw [if_neg hk] at h
      rw [if_neg hk, mapGet_cons, if_neg hk]
      exact ih h

theorem mapUpdate_comp {α : Type} (m : List (String × α)) (k : String) (f g : α → α) :
    mapUpdate (mapUpdate m k f) k g = mapUpdate m k (fun v => g (f v)) := by
  induction m with
  | nil => rfl
  | cons p rest ih =>
    obtain ⟨pk, pv⟩ := p
    rw [mapUpdate_cons]
    by_cases hk : pk = k
    · rw [if_pos hk, mapUpdate_cons, if_pos hk, mapUpdate_cons, if_pos hk]
    · rw [if_neg hk, mapUpdate_cons, if_neg hk, mapUpdate_cons, if_neg hk, ih]

theorem mapUpdate_const_self {α : Type} {m : List (String × α)} {k : String} {v : α}
    (h : mapGet m k = some v) : mapUpdate m k (fun _ => v) = m := by
  induction m with
  | nil => rfl
  | cons p rest ih =>
    obtain ⟨pk, pv⟩ := p
    rw [mapGet_cons] at h
    rw [mapUpdate_cons]
    by_cases hk : pk = k
    · rw [if_pos hk] at h
      simp at h
      rw [if_pos hk, h]
    · rw [if_neg hk] at h
      rw [if_neg hk, ih h]

theorem mapUpdate_keys {α : Type} (m : List (String × α)) (k : String) (f : α → α) :
    (mapUpdate m k f).map Prod.fst = m.map Prod.fst := by
  induction m with
  | nil => rfl
  | cons p rest ih =>
    obtain ⟨pk, pv⟩ := p
    rw [mapUpdate_cons]
    by_cases hk : pk = k
    · rw [if_pos hk]; simp
    · rw [if_neg hk]; simp [ih]

theorem mapRemove_no_key {α : Type} {m : List (String × α)} {k : String}
    (hnd : (m.map Prod.fst).Nodup) : ∀ p ∈ mapRemove m k, p.1 ≠ k := by
  induction m with
  | nil => intro p hp; simp [mapRemove] at hp
  | cons q rest ih =>
    obtain ⟨qk, qv⟩ := q
    simp only [List.map_cons, List.nodup_cons] at hnd
    intro p hp
    rw [mapRemove_cons] at hp
    by_cases hk : qk = k
    · rw [if_pos hk] at hp
      subst hk
      intro hpk
      exact hnd.1 (hpk ▸ List.mem_map_of_mem Prod.fst hp)
    · rw [if_neg hk] at hp
      cases hp with
      | head => exact hk
      | tail _ hm => exact ih hnd.2 p hm

theorem filter_key_length_eq_count {α : Type} (m : List (String × α)) (k : String) :
    (m.filter (fun p => p.1 == k)).length = (m.map Prod.fst).count k := by
  induction m with
  | nil => rfl
  | cons p rest ih =>
    obtain ⟨pk, pv⟩ := p
    rw [List.filter_cons]
    by_cases hk : pk = k
    · subst hk
      simp [List.count_cons, ih]
    · have hb : ((pk, pv).1 == k) = false := by simpa using hk
      simp [hb, List.count_cons, hk, ih]

theorem setAdd_again (l : List String) (i : String) :
    setAdd (setAdd l i) i = setAdd l i := by
  unfold setAdd
  by_cases hv : i ∈ l
  · simp [hv]
  · simp only [hv, if_false]
    have : i ∈ l ++ [i] := by simp
    simp [this]

/-- C7: subscribing the same pair any number of times is the same as
subscribing once and leaves exactly one ledger entry for the URI, holding
the subscriber exactly once; unsubscribing a non-member (or from an
unknown URI) is a no-op; and once the last subscriber unsubscribes the
ledger holds no entry at all for the URI. -/
theorem c7_subscription_ledger (s : List (String × List String)) (u i : String) :
    subscribe (subscribe s u i) u i = subscribe s u i ∧
    (mapGet s u = none → unsubscribe s u i = s) ∧
    (∀ l, mapGet s u = some l → i ∉ l → l ≠ [] → unsubscribe s u i = s) ∧
    (∀ l, mapGet s u = some l → l.erase i = [] → (s.map Prod.fst).Nodup →
      ∀ p ∈ unsubscribe s u i, p.1 ≠ u) ∧
    ((s.map Prod.fst).Nodup →
      ((subscribe s u i).filter (fun p => p.1 == u)).length = 1) ∧
    ((s.map Prod.fst).Nodup → (∀ p ∈ s, p.2.Nodup) →
      (getSubscribers (subscribe s u i) u).count i = 1) := by
  refine ⟨?_, ?_, ?_, ?_, ?_, ?_⟩
  · unfold subscribe
    cases h : mapGet s u with
    | none =>
      simp only [h, Option.isSome_none, Bool.false_eq_true, if_false]
      rw [mapUpdate_append_of_none h]
      have h1 : mapUpdate [(u, [])] u (fun l => setAdd l i) = [(u, setAdd [] i)] := by
        rw [mapUpdate_cons, if_pos rfl]
      rw [h1]
      have h2 : mapGet (s ++ [(u, setAdd [] i)]) u = some (setAdd [] i) := by
        rw [mapGet_append_of_none h, mapGet_cons, if_pos rfl]
      simp only [h2, Option.isSome_some, if_true]
      rw [mapUpdate_append_of_none h]
      have h3 : mapUpdate [(u, setAdd [] i)] u (fun l => setAdd l i)
          = [(u, setAdd (setAdd [] i) i)] := by
        rw [mapUpdate_cons, if_pos rfl]
      rw [h3, setAdd_again]
    | some l =>
      simp only [h, Option.isSome_some, if_true]
      have h2 : mapGet (mapUpdate s u (fun l => setAdd l i)) u = some (setAdd l i) :=
        mapGet_update_self h _
      simp only [h2, Option.isSome_some, if_true]
      rw [mapUpdate_comp]
      congr 1
      funext v
      exact setAdd_again v i
  · intro h
    unfold unsubscribe
    rw [h]
  · intro l h hni hne
    have herl : l.erase i = l := List.erase_of_not_mem hni
    have hstep : unsubscribe s u i = mapUpdate s u (fun _ => l.erase i) := by
      unfold unsubscribe
      rw [h]
      show (if (l.erase i).isEmpty then mapRemove s u
            else mapUpdate s u (fun _ => l.erase i)) = _
      rw [if_neg (by simp [herl, List.isEmpty_iff, hne])]
    rw [hstep, herl]
    exact mapUpdate_const_self h
  · intro l h herase hnd p hp
    have hstep : unsubscribe s u i = mapRemove s u := by
      unfold unsubscribe
      rw [h]
      show (if (l.erase i).isEmpty then mapRemove s u
            else mapUpdate s u (fun _ => l.erase i)) = _
      rw [if_pos (by simp [herase])]
    rw [hstep] at hp
    exact mapRemove_no_key hnd p hp
  · intro hnd
    rw [filter_key_length_eq_count]
    unfold subscribe
    cases h : mapGet s u with
    | none =>
      simp only [h, Option.isSome_none, Bool.false_eq_true, if_false]
      rw [mapUpdate_append_of_none h]
      have h1 : mapUpdate [(u, [])] u (fun l => setAdd l i) = [(u, setAdd [] i)] := by
        rw [mapUpdate_cons, if_pos rfl]
      rw [h1, List.map_append, List.count_append]
      have hu : u ∉ s.map Prod.fst := mapGet_none_iff.mp h
      rw [List.count_eq_zero.mpr hu]
      simp
    | some l =>
      simp only [h, Option.isSome_some, if_true]
      rw [mapUpdate_keys]
      have hu : u ∈ s.map Prod.fst := List.mem_map_of_mem Prod.fst (mapGet_some_mem h)
      exact List.count_eq_one_of_mem hnd hu
  · intro hnd hsets
    unfold subscribe getSubscribers
    cases h : mapGet s u with
    | none =>
      simp only [h, Option.isSome_none, Bool.false_eq_true, if_false]
      rw [mapUpdate_append_of_none h]
      have h1 : mapUpdate [(u, [])] u (fun l => setAdd l i) = [(u, setAdd [] i)] := by
        rw [mapUpdate_cons, if_pos rfl]
      rw [h1, mapGet_append_of_none h, mapGet_cons, if_pos rfl]
      simp [setAdd]
    | some l =>
      simp only [h, Option.isSome_some, if_true]
      rw [mapGet_update_self h]
      have hlnd : l.Nodup := hsets (u, l) (mapGet_some_mem h)
      unfold setAdd
      by_cases hv : i ∈ l
      · simp only [hv, if_true, Option.getD_some]
        exact List.count_eq_one_of_mem hlnd hv
      · simp only [hv, if_false, Option.getD_some]
        rw [List.count_append, List.count_eq_zero.mpr hv]
        simp

def c7Subs : List (String × List String) := [("data://a", ["c1"])]

/-- C7 witness: concrete idempotent subscribe, no-op unsubscribes, entry
removal after the last unsubscribe, and the exactly-one-entry counts. -/
theorem c7_witness :
    subscribe (subscribe c7Subs "data://a" "c1") "data://a" "c1"
      = subscribe c7Subs "data://a" "c1" ∧
    unsubscribe c7Subs "data://b" "c1" = c7Subs ∧
    unsubscribe c7Subs "data://a" "c9" = c7Subs ∧
    (∀ p ∈ unsubscribe c7Subs "data://a" "c1", p.1 ≠ "data://a") ∧
    ((subscribe c7Subs "data://a" "c1").filter (fun p => p.1 == "data://a")).length = 1 ∧
    (getSubscribers (subscribe c7Subs "data://a" "c1") "data://a").count "c1" = 1 := by
  have h := c7_subscription_ledger c7Subs "data://a" "c1"
  have hb := c7_subscription_ledger c7Subs "data://b" "c1"
  have h9 := c7_subscription_ledger c7Subs "data://a" "c9"
  refine ⟨h.1, hb.2.1 rfl, h9.2.2.1 ["c1"] rfl (by decide) (by decide),
    h.2.2.2.1 ["c1"] rfl rfl (by decide),
    h.2.2.2.2.1 (by decide),
    h.2.2.2.2.2 (by decide) ?_⟩
  intro p hp
  have hpe : p = ("data://a", ["c1"]) := by
    simpa [c7Subs] using hp
  rw [hpe]
  exact List.nodup_singleton "c1"

end BareMCP
